import Mathlib

/-!
# Verification of the Anything But Metric scraper admission pipeline

Shallow embedding of `scraper/scraper.py`: the comparison validator,
unit identity resolution, and the per-article edge admission pipeline,
together with proofs of the dataset invariants (dedup-key uniqueness,
monotonic id allocation, no self-loops) and the provider fallback and
output-shape handling.

Python values appearing in untrusted LLM candidate objects are modelled
by the inductive `PyVal` (JSON-shaped data: None, bool, int, float, str,
list, dict).  Floats are modelled as rationals; the pipeline only
compares factors for equality and positivity, never performs
rounding-sensitive arithmetic.  Code paths that can raise a Python
exception are modelled in the `Except PyExc` monad.  Network and LLM
calls are external collaborators: the candidate lists they return enter
the model as parameters.
-/

set_option maxRecDepth 4000

namespace ABM

/-- JSON-shaped Python values as produced by `json.loads` on provider output. -/
inductive PyVal where
  | none  : PyVal
  | bool  : Bool → PyVal
  | int   : Int → PyVal
  | float : ℚ → PyVal
  | str   : String → PyVal
  | list  : List PyVal → PyVal
  | dict  : List (String × PyVal) → PyVal

/-- Python exceptions that the embedded code can raise. -/
inductive PyExc where
  | attributeError : String → PyExc
  | typeError : String → PyExc
  | keyError : String → PyExc

/-- Python truthiness (`bool(v)`) for JSON-shaped values. -/
def PyVal.truthy : PyVal → Bool
  | .none => false
  | .bool b => b
  | .int n => decide (n ≠ 0)
  | .float q => decide (q ≠ 0)
  | .str s => decide (s ≠ "")
  | .list xs => !xs.isEmpty
  | .dict kvs => !kvs.isEmpty

/-- Dict lookup, `d.get(k)`.  Dicts built by the pipeline have unique keys;
the first binding wins, matching Python dict semantics on such lists. -/
def pyGet : List (String × PyVal) → String → Option PyVal
  | [], _ => Option.none
  | (k', v) :: rest, k => if k' = k then some v else pyGet rest k

/-- `d[k] = v`: overwrite in place when the key exists, else append
(Python dicts preserve insertion order and keep the original position
of an overwritten key). -/
def insertPy : List (String × PyVal) → String → PyVal → List (String × PyVal)
  | [], k, v => [(k, v)]
  | (k', v') :: rest, k, v =>
      if k' = k then (k', v) :: rest else (k', v') :: insertPy rest k v

/-- Lookup in the string-valued term index, `terms_to_id.get(t)`. -/
def lookupStr : List (String × String) → String → Option String
  | [], _ => Option.none
  | (k, v) :: rest, t => if k = t then some v else lookupStr rest t

/-- `terms_to_id[k] = v` (overwrite-or-append, as for `insertPy`). -/
def insertStr : List (String × String) → String → String → List (String × String)
  | [], k, v => [(k, v)]
  | (k', v') :: rest, k, v =>
      if k' = k then (k', v) :: rest else (k', v') :: insertStr rest k v

/-- Python `s.lower()` (ASCII view), on the character list. -/
def lowerStr (s : String) : String := String.mk (s.toList.map Char.toLower)

/-- Python `s.strip()`: drop leading and trailing whitespace. -/
def trimStr (s : String) : String :=
  String.mk
    (((s.toList.dropWhile Char.isWhitespace).reverse.dropWhile Char.isWhitespace).reverse)

/-- `s.replace("_", " ")`: single-character replacement is a map. -/
def underscoreToSpace (s : String) : String :=
  String.mk (s.toList.map (fun c => if c = '_' then ' ' else c))

/-- `v.lower()`: only strings have the attribute. -/
def pyLower : PyVal → Except PyExc String
  | .str s => .ok (lowerStr s)
  | _ => .error (.attributeError "lower")

/-- `isinstance(v, (int, float))`.  Python `bool` is a subclass of `int`,
so booleans count as numeric. -/
def isNumeric : PyVal → Bool
  | .bool _ => true
  | .int _ => true
  | .float _ => true
  | _ => false

/-- Numeric value of a numeric `PyVal` (`True` counts as 1, `False` as 0);
0 for non-numeric values, which the callers always guard against. -/
def numQ : PyVal → ℚ
  | .bool b => if b then 1 else 0
  | .int n => (n : ℚ)
  | .float q => q
  | _ => 0

/-- `float(v)` for values that already passed the numeric check in
`validate_comparison` (Python `float()` additionally parses strings, but
the pipeline only applies it to validated numeric factors). -/
def pyFloat : PyVal → Except PyExc ℚ
  | .bool b => .ok (if b then 1 else 0)
  | .int n => .ok (n : ℚ)
  | .float q => .ok q
  | _ => .error (.typeError "float() argument")

/-- `comp[k]`: plain indexing, `KeyError` when absent, `TypeError` on
non-dicts. -/
def pyIndex (comp : PyVal) (k : String) : Except PyExc PyVal :=
  match comp with
  | .dict kvs =>
      match pyGet kvs k with
      | some v => .ok v
      | Option.none => .error (.keyError k)
  | _ => .error (.typeError "not subscriptable")

/-- `for x in v`: lists yield elements, strings yield one-character
strings, dicts yield their keys; other JSON values are not iterable. -/
def pyIter : PyVal → Except PyExc (List PyVal)
  | .list xs => .ok xs
  | .str s => .ok (s.toList.map (fun c => PyVal.str (String.mk [c])))
  | .dict kvs => .ok (kvs.map (fun p => PyVal.str p.1))
  | _ => .error (.typeError "not iterable")

/-! ## String helpers: `slugify`, `str.title`, substring search

Core `String` functions such as `String.toLower`, `String.trim` and
`String.replace` are implemented on byte positions and do not reduce
definitionally, so the embedding uses character-list equivalents. -/

/-- Naive substring test, Python `pat in s` on the underlying characters. -/
def containsAux (pat : List Char) : List Char → Bool
  | [] => pat.isPrefixOf []
  | c :: rest => pat.isPrefixOf (c :: rest) || containsAux pat rest

/-- Python `pat in s` for strings. -/
def strContains (s pat : String) : Bool := containsAux pat.toList s.toList

/-- A `\w` word character (ASCII view: letters, digits, underscore). -/
def isWordChar (c : Char) : Bool := c.isAlphanum || c = '_'

/-- Collapse runs of underscores to a single underscore
(`re.sub(r"_+", "_", s)`). -/
def collapseUnderscore : List Char → List Char
  | [] => []
  | c :: rest =>
      match rest with
      | [] => [c]
      | d :: _ =>
          if c = '_' && d = '_' then collapseUnderscore rest
          else c :: collapseUnderscore rest

/-- `slugify(label)` from the source: lowercase, drop characters that are
neither word characters nor whitespace, strip, turn whitespace runs into
single underscores, collapse underscore runs.  (Mapping every whitespace
character to an underscore before collapsing underscore runs yields the
same string as first collapsing whitespace runs, since the final pass
merges all adjacent underscores.) -/
def slugify (label : String) : String :=
  let s := lowerStr label
  let kept := s.toList.filter (fun c => isWordChar c || c.isWhitespace)
  let trimmed := trimStr (String.mk kept)
  let mapped := trimmed.toList.map (fun c => if c.isWhitespace then '_' else c)
  String.mk (collapseUnderscore mapped)

/-- Helper for `pyTitle`: uppercase cased characters that follow an
uncased character, lowercase the rest. -/
def titleAux : List Char → Bool → List Char
  | [], _ => []
  | c :: rest, prevAlpha =>
      (if c.isAlpha then (if prevAlpha then c.toLower else c.toUpper) else c)
        :: titleAux rest c.isAlpha

/-- Python `str.title()` (ASCII view). -/
def pyTitle (s : String) : String := String.mk (titleAux s.toList false)

/-- `slugify` applied to a Python value: `.lower()` inside `slugify`
raises on non-strings. -/
def pySlugify : PyVal → Except PyExc String
  | .str s => .ok (slugify s)
  | _ => .error (.attributeError "lower")

/-! ## Comparison validator (`validate_comparison`, `has_comparison_phrase`) -/

/-- `COMPARISON_KEYWORDS` from the source, verbatim. -/
def COMPARISON_KEYWORDS : List String := [
  "times the size", "times the area", "times the weight", "times the height",
  "times the length", "times the volume", "times larger than", "times bigger than", "times smaller than",
  "the size of", "the area of", "the weight of", "the height of",
  "as big as", "as heavy as", "as tall as", "as wide as", "as long as",
  "weighs as much as",
  "equivalent to"]

/-- `has_comparison_phrase(quote)`: any recognised fragment occurs in the
lowercased quote as a substring. -/
def has_comparison_phrase (quote : String) : Bool :=
  COMPARISON_KEYWORDS.any (fun kw => strContains (lowerStr quote) kw)

/-- `validate_comparison(comp, existing_ids)` (the `existing_ids`
parameter is unused in the source).  Checks, in source order with
short-circuiting: `comp` is a dict; `from` and `to` keys present;
`factor` numeric (bools included) and strictly positive;
`comp.get("source_quote", "")` truthy; the quote passes
`has_comparison_phrase` — where `.lower()` raises `AttributeError`
when the (truthy) quote is not a string. -/
def validate_comparison (comp : PyVal) : Except PyExc Bool :=
  match comp with
  | .dict kvs =>
      if (pyGet kvs "from").isNone then .ok false
      else if (pyGet kvs "to").isNone then .ok false
      else if !(isNumeric ((pyGet kvs "factor").getD PyVal.none)) then .ok false
      else if numQ ((pyGet kvs "factor").getD PyVal.none) ≤ 0 then .ok false
      else if !((pyGet kvs "source_quote").getD (PyVal.str "")).truthy then .ok false
      else
        match (pyGet kvs "source_quote").getD (PyVal.str "") with
        | .str s => .ok (has_comparison_phrase s)
        | _ => .error (.attributeError "lower")
  | _ => .ok false

/-! ## Unit identity resolution (`resolve_unit`) -/

/-- Lowercase the terms of an alias list, raising on non-strings as
Python `alias.lower()` does. -/
def lowerAll : List PyVal → Except PyExc (List String)
  | [] => .ok []
  | v :: rest =>
      match pyLower v with
      | .error e => .error e
      | .ok s =>
          match lowerAll rest with
          | .error e => .error e
          | .ok ss => .ok (s :: ss)

/-- Keep the first occurrence of each string (models the Python `set`
`check_terms`, fixing insertion order — label first, then aliases — as
the iteration order; the source iterates the set in an unspecified but
deterministic order, and no claim depends on which of several
simultaneously matching terms wins). -/
def dedupAux (seen : List String) : List String → List String
  | [] => []
  | s :: rest =>
      if s ∈ seen then dedupAux seen rest
      else s :: dedupAux (s :: seen) rest

/-- First occurrence of each term. -/
def dedupKeepFirst (l : List String) : List String := dedupAux [] l

/-- `check_terms` of a structured proposal: the lowercased label (when
truthy) and every lowercased alias. -/
def buildCheckTerms (kvs : List (String × PyVal)) : Except PyExc (List String) :=
  match
    (if ((pyGet kvs "label").getD PyVal.none).truthy then
      match pyLower ((pyGet kvs "label").getD PyVal.none) with
      | .error e => .error e
      | .ok s => .ok [s]
    else (.ok [] : Except PyExc (List String)))
  with
  | .error e => .error e
  | .ok ls =>
      match pyIter ((pyGet kvs "aliases").getD (PyVal.list [])) with
      | .error e => .error e
      | .ok items =>
          match lowerAll items with
          | .error e => .error e
          | .ok als => .ok (dedupKeepFirst (ls ++ als))

/-- `for term in check_terms: canonical = terms_to_id.get(term); if canonical: return canonical`
(the truthiness test also skips an empty-string canonical id). -/
def firstTermMatch (T : List (String × String)) : List String → Option String
  | [] => Option.none
  | t :: rest =>
      match lookupStr T t with
      | some c => if c = "" then firstTermMatch T rest else some c
      | Option.none => firstTermMatch T rest

/-- `suggested_id`: the proposal's truthy `id` field, else the slugified
label (defaulting to `"unknown"`); the result is slugified (again). -/
def computeSuggested (kvs : List (String × PyVal)) : Except PyExc String :=
  if ((pyGet kvs "id").getD PyVal.none).truthy then
    pySlugify ((pyGet kvs "id").getD PyVal.none)
  else
    match pySlugify ((pyGet kvs "label").getD (PyVal.str "unknown")) with
    | .error e => .error e
    | .ok s => .ok (slugify s)

/-- The `while final_id in existing_ids` suffixing loop, fuelled.  The
candidate strings for distinct counters are pairwise distinct, so a fuel
of `existing_ids.length + 1` always suffices to find a free id, exactly
as the unbounded Python loop does. -/
def findFinalIdAux (suggested : String) (existing_ids : List String) :
    Nat → Nat → String
  | 0, counter => suggested ++ "_" ++ toString counter
  | Nat.succ fuel, counter =>
      if (suggested ++ "_" ++ toString counter) ∈ existing_ids then
        findFinalIdAux suggested existing_ids fuel (counter + 1)
      else suggested ++ "_" ++ toString counter

/-- Final minted id: the suggested id, suffixed `_2`, `_3`, … while it
collides with a catalogue id (minted-this-run ids are not consulted by
the loop, matching the source). -/
def findFinalId (suggested : String) (existing_ids : List String) : String :=
  if suggested ∈ existing_ids then
    findFinalIdAux suggested existing_ids (existing_ids.length + 1) 2
  else suggested

/-- The minted unit record: `id` and `label` always (label falling back
to the humanised, title-cased final id when the key is absent), then
`emoji` / `aliases` / `tags` only when truthy in the proposal. -/
def mkNewUnit (kvs : List (String × PyVal)) (final_id : String) : PyVal :=
  PyVal.dict (
    [("id", PyVal.str final_id),
     ("label", (pyGet kvs "label").getD (PyVal.str (pyTitle (underscoreToSpace final_id))))]
    ++ (if ((pyGet kvs "emoji").getD PyVal.none).truthy then
          [("emoji", (pyGet kvs "emoji").getD PyVal.none)] else [])
    ++ (if ((pyGet kvs "aliases").getD PyVal.none).truthy then
          [("aliases", (pyGet kvs "aliases").getD PyVal.none)] else [])
    ++ (if ((pyGet kvs "tags").getD PyVal.none).truthy then
          [("tags", (pyGet kvs "tags").getD PyVal.none)] else []))

/-- The dict branch of `resolve_unit`: match the proposal's label and
aliases against the (run-initial) term index; else reuse an id already
minted this run; else mint a fresh unit and record it in the
minted-units map.  Note the term index is read, never extended. -/
def resolve_unit_dict (kvs : List (String × PyVal)) (existing_ids : List String)
    (new_units_map : List (String × PyVal)) (terms_to_id : List (String × String)) :
    Except PyExc (Option String × Option PyVal × List (String × PyVal)) :=
  match buildCheckTerms kvs with
  | .error e => .error e
  | .ok terms =>
      match firstTermMatch terms_to_id terms with
      | some canonical => .ok (some canonical, Option.none, new_units_map)
      | Option.none =>
          match computeSuggested kvs with
          | .error e => .error e
          | .ok suggested =>
              if (pyGet new_units_map suggested).isSome then
                .ok (some suggested, Option.none, new_units_map)
              else
                .ok (some (findFinalId suggested existing_ids),
                     some (mkNewUnit kvs (findFinalId suggested existing_ids)),
                     insertPy new_units_map (findFinalId suggested existing_ids)
                       (mkNewUnit kvs (findFinalId suggested existing_ids)))

/-- The dict synthesised from an unknown string id
(`human = unit_ref.replace("_", " ")`). -/
def synthKvs (s : String) : List (String × PyVal) :=
  [("id", PyVal.str s),
   ("label", PyVal.str (pyTitle (underscoreToSpace s))),
   ("aliases", PyVal.list [PyVal.str (underscoreToSpace s)])]

/-- `resolve_unit(unit_ref, existing_ids, new_units_map, terms_to_id)`:
returns `(unit_id?, new_unit?, new_units_map')`, threading the
minted-units map that the source mutates in place. -/
def resolve_unit (unit_ref : PyVal) (existing_ids : List String)
    (new_units_map : List (String × PyVal)) (terms_to_id : List (String × String)) :
    Except PyExc (Option String × Option PyVal × List (String × PyVal)) :=
  match unit_ref with
  | .str s =>
      if s ∈ existing_ids || (pyGet new_units_map s).isSome then
        .ok (some s, Option.none, new_units_map)
      else
        match lookupStr terms_to_id (lowerStr s) with
        | some c =>
            if c = "" then resolve_unit_dict (synthKvs s) existing_ids new_units_map terms_to_id
            else .ok (some c, Option.none, new_units_map)
        | Option.none => resolve_unit_dict (synthKvs s) existing_ids new_units_map terms_to_id
  | .dict kvs => resolve_unit_dict kvs existing_ids new_units_map terms_to_id
  | _ => .ok (Option.none, Option.none, new_units_map)

/-! ## Provider output shapes and fallback (`call_groq`, `call_gemini`, `call_llm`) -/

/-- The key names under which Groq output may wrap the candidate array. -/
def WRAP_KEYS : List String := ["comparisons", "results", "data", "items"]

/-- `for key in (...): if isinstance(parsed.get(key), list): return parsed[key]`. -/
def firstWrapped (kvs : List (String × PyVal)) : List String → Option (List PyVal)
  | [] => Option.none
  | k :: rest =>
      match pyGet kvs k with
      | some (.list xs) => some xs
      | _ => firstWrapped kvs rest

/-- Groq shape handling of successfully parsed JSON: a bare array is the
answer; a dict is searched for the first conventional wrapper key
holding a list; anything else is no answer (`None`). -/
def groq_parse_shape (parsed : PyVal) : Option (List PyVal) :=
  match parsed with
  | .list xs => some xs
  | .dict kvs => firstWrapped kvs WRAP_KEYS
  | _ => Option.none

/-- Gemini shape handling of successfully parsed JSON: only a bare array
is accepted; every other shape collapses to the empty list. -/
def gemini_parse_shape (parsed : PyVal) : List PyVal :=
  match parsed with
  | .list xs => xs
  | _ => []

/-- `call_llm`: the Groq call's observable outcome (`some` answer versus
`None` for any failure — quota, missing key, rate limit, bad JSON or
shape, error) and the Gemini call's answer enter as parameters; the
returned flag records whether `call_gemini` was invoked. -/
def call_llm (groq_result : Option (List PyVal)) (gemini_quota_exhausted : Bool)
    (gemini_result : List PyVal) : List PyVal × Bool :=
  match groq_result with
  | some r => (r, false)
  | Option.none =>
      if gemini_quota_exhausted then ([], false) else (gemini_result, true)

/-! ## Edge admission pipeline (`process_article` loop, `main` bookkeeping) -/

/-- An admitted (or pre-existing) edge record. -/
structure Edge where
  id : String
  from_ : String
  to_ : String
  factor : ℚ
  source_url : String
  source_quote : PyVal
  date_scraped : String
  verified : Bool

/-- The sole de-duplication key: `(from, to, factor, source_url)`. -/
def EdgeKey : Type := String × String × ℚ × String

instance : DecidableEq EdgeKey := by unfold EdgeKey; infer_instance

/-- Dedup key of an edge. -/
def edgeKey (e : Edge) : EdgeKey := (e.from_, e.to_, e.factor, e.source_url)

/-- Run-scoped mutable state threaded through the admission pipeline. -/
structure RunState where
  new_units_map : List (String × PyVal)
  new_edges : List Edge
  dedup_edge_keys : List EdgeKey
  max_edge_num : Nat

/-- `dedup_edge_keys.add(k)` (set semantics: membership only). -/
def addKey (ks : List EdgeKey) (k : EdgeKey) : List EdgeKey :=
  if k ∈ ks then ks else k :: ks

/-- `MAX_EDGES_PER_ARTICLE` from the source. -/
def MAX_EDGES_PER_ARTICLE : Nat := 3

/-- `id` matched against `e(\d+)$`: the numeric part of a well-formed
edge id (ASCII digits). -/
def parseEdgeNum (s : String) : Option Nat :=
  match s.toList with
  | 'e' :: rest =>
      if rest ≠ [] && rest.all Char.isDigit then
        some (rest.foldl (fun n c => 10 * n + (c.toNat - 48)) 0)
      else Option.none
  | _ => Option.none

/-- Maximum numeric edge id over the pre-existing dataset (0 when none
matches), as computed in `main`. -/
def maxEdgeNum (edges : List Edge) : Nat :=
  edges.foldl (fun acc e =>
    match parseEdgeNum e.id with
    | some n => Nat.max acc n
    | Option.none => acc) 0

/-- `f"e{n:03d}"`: `e` plus the decimal digits zero-padded to a minimum
width of 3 (wider numbers print in full). -/
def formatEdgeId (n : Nat) : String :=
  "e" ++ String.mk (List.replicate (3 - (toString n).length) '0') ++ toString n

/-- One iteration of the `for comp in comparisons` loop of
`process_article`, threading run state and the per-article counter:
validate; resolve both sides (each resolution may mint a unit that stays
in the map even when the edge is later skipped); skip unresolved sides,
self-loops, (optionally) both-new edges, and duplicate dedup keys;
otherwise allocate the next id and append the edge. -/
def admit_comp (article_url today : String) (existing_unit_ids : List String)
    (terms_to_id : List (String × String)) (filter_both_new : Bool)
    (st : RunState) (cnt : Nat) (comp : PyVal) : Except PyExc (RunState × Nat) :=
  match validate_comparison comp with
  | .error e => .error e
  | .ok false => .ok (st, cnt)
  | .ok true =>
      match pyIndex comp "from" with
      | .error e => .error e
      | .ok fromRef =>
          match resolve_unit fromRef existing_unit_ids st.new_units_map terms_to_id with
          | .error e => .error e
          | .ok (fromId?, _, m1) =>
              match pyIndex comp "to" with
              | .error e => .error e
              | .ok toRef =>
                  match resolve_unit toRef existing_unit_ids m1 terms_to_id with
                  | .error e => .error e
                  | .ok (toId?, _, m2) =>
                      match fromId?, toId? with
                      | some fromId, some toId =>
                          if fromId = toId then
                            .ok ({ st with new_units_map := m2 }, cnt)
                          else if filter_both_new && (pyGet m2 fromId).isSome
                              && (pyGet m2 toId).isSome then
                            .ok ({ st with new_units_map := m2 }, cnt)
                          else
                            match pyIndex comp "factor" with
                            | .error e => .error e
                            | .ok fv =>
                                match pyFloat fv with
                                | .error e => .error e
                                | .ok factor =>
                                    if (fromId, toId, factor, article_url) ∈ st.dedup_edge_keys then
                                      .ok ({ st with new_units_map := m2 }, cnt)
                                    else
                                      match pyIndex comp "source_quote" with
                                      | .error e => .error e
                                      | .ok sq =>
                                          .ok ({ new_units_map := m2,
                                                 new_edges := st.new_edges ++
                                                   [{ id := formatEdgeId (st.max_edge_num + 1),
                                                      from_ := fromId, to_ := toId,
                                                      factor := factor,
                                                      source_url := article_url,
                                                      source_quote := sq,
                                                      date_scraped := today,
                                                      verified := false }],
                                                 dedup_edge_keys :=
                                                   addKey st.dedup_edge_keys (fromId, toId, factor, article_url),
                                                 max_edge_num := st.max_edge_num + 1 },
                                               cnt + 1)
                      | _, _ => .ok ({ st with new_units_map := m2 }, cnt)

/-- The candidate loop with the per-article cap: once
`MAX_EDGES_PER_ARTICLE` edges were admitted the loop breaks (remaining
candidates leave the state untouched). -/
def process_comps_loop (article_url today : String) (existing_unit_ids : List String)
    (terms_to_id : List (String × String)) (filter_both_new : Bool) :
    List PyVal → RunState → Nat → Except PyExc (RunState × Nat)
  | [], st, cnt => .ok (st, cnt)
  | comp :: rest, st, cnt =>
      if MAX_EDGES_PER_ARTICLE ≤ cnt then .ok (st, cnt)
      else
        match admit_comp article_url today existing_unit_ids terms_to_id
            filter_both_new st cnt comp with
        | .error e => .error e
        | .ok (st', cnt') =>
            process_comps_loop article_url today existing_unit_ids terms_to_id
              filter_both_new rest st' cnt'

/-- `process_article` from the point where the extractor returned its
candidate list (text fetching and the LLM call are external
collaborators; an absent text or empty candidate list is a no-op). -/
def process_article (article_url today : String) (existing_unit_ids : List String)
    (terms_to_id : List (String × String)) (filter_both_new : Bool)
    (comparisons : List PyVal) (st : RunState) : Except PyExc RunState :=
  if comparisons.isEmpty then .ok st
  else
    match process_comps_loop article_url today existing_unit_ids terms_to_id
        filter_both_new comparisons st 0 with
    | .error e => .error e
    | .ok (st', _) => .ok st'

/-- One run over a sequence of articles, each given as its URL and the
candidate list the extractor produced for it. -/
def process_run (today : String) (existing_unit_ids : List String)
    (terms_to_id : List (String × String)) (filter_both_new : Bool) :
    List (String × List PyVal) → RunState → Except PyExc RunState
  | [], st => .ok st
  | (url, comps) :: rest, st =>
      match process_article url today existing_unit_ids terms_to_id
          filter_both_new comps st with
      | .error e => .error e
      | .ok st' =>
          process_run today existing_unit_ids terms_to_id filter_both_new rest st'

/-- The run-initial state built in `main`: empty accumulators, the dedup
set seeded with every persisted edge's key, and the sequence counter
seeded with the maximum numeric id of the persisted dataset. -/
def initial_state (edges : List Edge) : RunState :=
  { new_units_map := []
    new_edges := []
    dedup_edge_keys := edges.map edgeKey
    max_edge_num := maxEdgeNum edges }

/-- A catalogued unit as loaded from `units.json`. -/
structure UnitRec where
  id : String
  label : String
  aliases : List String

/-- The term index built in `main`: every lowercased id, label and alias
of the pre-existing catalogue maps to its canonical unit id. -/
def buildTermsToId (units : List UnitRec) : List (String × String) :=
  units.foldl (fun t u =>
    u.aliases.foldl (fun t a => insertStr t (lowerStr a) u.id)
      (insertStr (insertStr t (lowerStr u.id) u.id) (lowerStr u.label) u.id)) []

/-! ## Helper lemmas -/

theorem mem_addKey {ks : List EdgeKey} {k a : EdgeKey} :
    a ∈ addKey ks k ↔ a = k ∨ a ∈ ks := by
  unfold addKey
  split
  · constructor
    · exact fun h => Or.inr h
    · rintro (rfl | h) <;> assumption
  · simp [List.mem_cons]

theorem pyGet_insertPy_self (m : List (String × PyVal)) (k : String) (v : PyVal) :
    pyGet (insertPy m k v) k = some v := by
  induction m with
  | nil => simp [insertPy, pyGet]
  | cons p rest ih =>
      obtain ⟨k', v'⟩ := p
      by_cases h : k' = k
      · simp [insertPy, pyGet, h]
      · simp [insertPy, pyGet, h, ih]

theorem pyGet_insertPy_ne (m : List (String × PyVal)) {k k' : String} (v : PyVal)
    (h : k ≠ k') : pyGet (insertPy m k v) k' = pyGet m k' := by
  induction m with
  | nil => simp [insertPy, pyGet, h]
  | cons p rest ih =>
      obtain ⟨k₀, v₀⟩ := p
      by_cases h₀ : k₀ = k
      · subst h₀; simp [insertPy, pyGet, h]
      · simp [insertPy, pyGet, h₀, ih]

theorem insertPy_of_pyGet {m : List (String × PyVal)} {k : String} {v : PyVal}
    (h : pyGet m k = some v) : insertPy m k v = m := by
  induction m with
  | nil => simp [pyGet] at h
  | cons p rest ih =>
      obtain ⟨k₀, v₀⟩ := p
      by_cases h₀ : k₀ = k
      · subst h₀
        simp only [pyGet, if_pos rfl] at h
        injection h with h
        simp [insertPy, h]
      · simp only [pyGet, if_neg h₀] at h
        simp [insertPy, h₀, ih h]

/-! ## The admission step relation

Every `.ok` outcome of `admit_comp` either leaves the edge bookkeeping
untouched (only the minted-units map may grow) or appends exactly one
edge whose key was free, records the key, and advances the sequence
counter by one. -/

/-- What one admission step may do to the edge bookkeeping. -/
def AdmitRel (article_url : String) (st st' : RunState) : Prop :=
  (st'.new_edges = st.new_edges ∧ st'.dedup_edge_keys = st.dedup_edge_keys ∧
    st'.max_edge_num = st.max_edge_num) ∨
  (∃ e : Edge, e.source_url = article_url ∧ e.from_ ≠ e.to_ ∧
    edgeKey e ∉ st.dedup_edge_keys ∧
    e.id = formatEdgeId (st.max_edge_num + 1) ∧
    st'.new_edges = st.new_edges ++ [e] ∧
    st'.dedup_edge_keys = addKey st.dedup_edge_keys (edgeKey e) ∧
    st'.max_edge_num = st.max_edge_num + 1)

theorem admit_comp_rel {article_url today : String} {E : List String}
    {T : List (String × String)} {fbn : Bool} {st : RunState} {cnt : Nat}
    {comp : PyVal} {st' : RunState} {cnt' : Nat}
    (h : admit_comp article_url today E T fbn st cnt comp = .ok (st', cnt')) :
    AdmitRel article_url st st' := by
  unfold admit_comp at h
  repeat' split at h
  all_goals
    first
    | exact Except.noConfusion h
    | (injection h with h
       injection h with ha hb
       subst ha
       first
       | exact Or.inl ⟨rfl, rfl, rfl⟩
       | (refine Or.inr ⟨_, rfl, ?_, ?_, rfl, rfl, rfl, rfl⟩ <;> assumption))

/-! ## Run invariants and their preservation -/

/-- Dedup-key invariant: every key of the combined dataset is registered
in the dedup set, and the combined dataset has pairwise distinct keys. -/
def KeysInv (existing : List Edge) (st : RunState) : Prop :=
  (∀ e ∈ existing ++ st.new_edges, edgeKey e ∈ st.dedup_edge_keys) ∧
  List.Pairwise (fun a b => edgeKey a ≠ edgeKey b) (existing ++ st.new_edges)

/-- Id invariant: the sequence counter leads the admitted-edge count by
`max0`, and the admitted ids are the formatted consecutive numbers
`max0+1, max0+2, …`. -/
def IdsInv (max0 : Nat) (st : RunState) : Prop :=
  st.max_edge_num = max0 + st.new_edges.length ∧
  st.new_edges.map Edge.id =
    (List.range st.new_edges.length).map (fun i => formatEdgeId (max0 + 1 + i))

/-- No admitted edge is a self-loop. -/
def NoLoopInv (st : RunState) : Prop := ∀ e ∈ st.new_edges, e.from_ ≠ e.to_

theorem KeysInv_preserved {url : String} {existing : List Edge} {st st' : RunState}
    (hrel : AdmitRel url st st') (hinv : KeysInv existing st) :
    KeysInv existing st' := by
  obtain ⟨hmem, hpair⟩ := hinv
  rcases hrel with ⟨he, hd, _⟩ | ⟨e, _, _, hfree, _, he, hd, _⟩
  · exact ⟨fun x hx => hd ▸ hmem x (he ▸ hx), he ▸ hpair⟩
  · constructor
    · intro x hx
      rw [he, ← List.append_assoc] at hx
      rw [hd]
      rcases List.mem_append.mp hx with hx | hx
      · exact mem_addKey.mpr (Or.inr (hmem x hx))
      · rw [List.mem_singleton.mp hx]
        exact mem_addKey.mpr (Or.inl rfl)
    · rw [he, ← List.append_assoc]
      rw [List.pairwise_append]
      refine ⟨hpair, List.pairwise_singleton _ _, ?_⟩
      intro a ha b hb
      rw [List.mem_singleton.mp hb]
      intro hcontra
      exact hfree (hcontra ▸ hmem a ha)

theorem IdsInv_preserved {url : String} {max0 : Nat} {st st' : RunState}
    (hrel : AdmitRel url st st') (hinv : IdsInv max0 st) : IdsInv max0 st' := by
  obtain ⟨hmax, hids⟩ := hinv
  rcases hrel with ⟨he, _, hm⟩ | ⟨e, _, _, _, hid, he, _, hm⟩
  · exact ⟨hm ▸ he ▸ hmax, he ▸ hids⟩
  · constructor
    · rw [hm, he, hmax, List.length_append, List.length_singleton]
      omega
    · rw [he, List.map_append, List.length_append, List.length_singleton,
        List.range_succ, List.map_append, hids]
      simp only [List.map_cons, List.map_nil, List.append_cancel_left_eq,
        List.cons.injEq, and_true]
      rw [hid, hmax]
      congr 1
      omega

theorem NoLoopInv_preserved {url : String} {st st' : RunState}
    (hrel : AdmitRel url st st') (hinv : NoLoopInv st) : NoLoopInv st' := by
  rcases hrel with ⟨he, _, _⟩ | ⟨e, _, hne, _, _, he, _, _⟩
  · exact fun x hx => hinv x (he ▸ hx)
  · intro x hx
    rw [he] at hx
    rcases List.mem_append.mp hx with hx | hx
    · exact hinv x hx
    · exact (List.mem_singleton.mp hx) ▸ hne

/-- Any property preserved by every admission step is preserved by the
candidate loop. -/
theorem loop_preserves {P : RunState → Prop}
    (hP : ∀ url st st', AdmitRel url st st' → P st → P st')
    {url today : String} {E : List String} {T : List (String × String)} {fbn : Bool} :
    ∀ {comps : List PyVal} {st : RunState} {cnt : Nat} {st' : RunState} {cnt' : Nat},
      process_comps_loop url today E T fbn comps st cnt = .ok (st', cnt') →
      P st → P st'
  | [], st, cnt, st', cnt', h, hp => by
      unfold process_comps_loop at h
      injection h with h
      injection h with ha hb
      exact ha ▸ hp
  | comp :: rest, st, cnt, st', cnt', h, hp => by
      unfold process_comps_loop at h
      split at h
      · injection h with h
        injection h with ha hb
        exact ha ▸ hp
      · cases hadm : admit_comp url today E T fbn st cnt comp with
        | error e => rw [hadm] at h; exact Except.noConfusion h
        | ok p =>
            rw [hadm] at h
            exact loop_preserves hP h (hP url st p.1 (admit_comp_rel hadm) hp)

/-- Any property preserved by every admission step is preserved by
`process_article`. -/
theorem article_preserves {P : RunState → Prop}
    (hP : ∀ url st st', AdmitRel url st st' → P st → P st')
    {url today : String} {E : List String} {T : List (String × String)} {fbn : Bool}
    {comps : List PyVal} {st st' : RunState}
    (h : process_article url today E T fbn comps st = .ok st') (hp : P st) : P st' := by
  unfold process_article at h
  split at h
  · injection h with h
    exact h ▸ hp
  · split at h
    · exact Except.noConfusion h
    · next st'' cnt'' heq =>
        injection h with h
        exact h ▸ loop_preserves hP heq hp

/-- Any property preserved by every admission step is preserved by a
whole run. -/
theorem run_preserves {P : RunState → Prop}
    (hP : ∀ url st st', AdmitRel url st st' → P st → P st')
    {today : String} {E : List String} {T : List (String × String)} {fbn : Bool} :
    ∀ {arts : List (String × List PyVal)} {st st' : RunState},
      process_run today E T fbn arts st = .ok st' → P st → P st'
  | [], st, st', h, hp => by
      unfold process_run at h
      injection h with h
      exact h ▸ hp
  | (url, comps) :: rest, st, st', h, hp => by
      unfold process_run at h
      cases hart : process_article url today E T fbn comps st with
      | error e => rw [hart] at h; exact Except.noConfusion h
      | ok st'' =>
          rw [hart] at h
          exact run_preserves hP h (article_preserves hP hart hp)

/-! ## Concrete run used by the witnesses -/

/-- Pre-existing catalogue for the witness run. -/
def wUnits : List UnitRec :=
  [{ id := "wales", label := "Wales", aliases := ["wales area"] },
   { id := "football_pitch", label := "Football Pitch", aliases := ["football pitches"] }]

/-- Catalogue ids of the witness run. -/
def wE : List String := ["wales", "football_pitch"]

/-- Term index of the witness run. -/
def wT : List (String × String) := buildTermsToId wUnits

/-- A well-formed candidate naming two existing units. -/
def wComp : PyVal := PyVal.dict
  [("from", PyVal.str "wales"), ("to", PyVal.str "football_pitch"),
   ("factor", PyVal.int 70000000),
   ("source_quote", PyVal.str "The reef is the size of 70 million football pitches.")]

/-- The witness run: one article with one candidate. -/
def wArts : List (String × List PyVal) := [("https://example.org/reef", [wComp])]

/-- The raw outcome of the witness run, starting from an empty dataset. -/
def wRun : Except PyExc RunState :=
  process_run "2026-10-12" wE wT false wArts (initial_state [])

/-- Projection of a completed run outcome to its state. -/
def okState (r : Except PyExc RunState) : RunState :=
  match r with
  | .ok st => st
  | .error _ => initial_state []

/-- The single edge admitted by the witness run. -/
def wEdge : Edge :=
  { id := "e001", from_ := "wales", to_ := "football_pitch",
    factor := ((70000000 : ℤ) : ℚ),
    source_url := "https://example.org/reef",
    source_quote := PyVal.str "The reef is the size of 70 million football pitches.",
    date_scraped := "2026-10-12", verified := false }

/-! ## C1 — edge dedup-key uniqueness -/

/-- C1.  For every run starting from a dataset of previously persisted
edges (whose keys are pairwise distinct, as every dataset produced by
this pipeline is), no two edges of the combined dataset after the run —
pre-existing edges plus edges admitted this run — share the same
`(from, to, factor, source_url)` tuple.  In particular a candidate whose
dedup key already occurs among the persisted edges or among edges
admitted earlier in the same run is never appended, since appending it
would duplicate a key in the combined dataset. -/
theorem edge_dedup_key_uniqueness (today : String) (E : List String)
    (T : List (String × String)) (fbn : Bool) (existing : List Edge)
    (arts : List (String × List PyVal)) (st : RunState)
    (hex : List.Pairwise (fun a b => edgeKey a ≠ edgeKey b) existing)
    (hrun : process_run today E T fbn arts (initial_state existing) = .ok st) :
    List.Pairwise (fun a b => edgeKey a ≠ edgeKey b) (existing ++ st.new_edges) := by
  have hinit : KeysInv existing (initial_state existing) := by
    constructor
    · intro e he
      simp only [initial_state, List.append_nil] at he ⊢
      exact List.mem_map_of_mem _ he
    · simpa [initial_state] using hex
  exact (run_preserves (fun _ _ _ => KeysInv_preserved) hrun hinit).2

/-- Witness for C1: the concrete one-article run admits its edge and the
combined dataset has pairwise distinct dedup keys. -/
theorem edge_dedup_key_uniqueness_witness :
    List.Pairwise (fun a b => edgeKey a ≠ edgeKey b)
      (([] : List Edge) ++ (okState wRun).new_edges) :=
  edge_dedup_key_uniqueness "2026-10-12" wE wT false [] wArts (okState wRun)
    List.Pairwise.nil (by rfl)

/-! ## C2 — monotonic id allocation -/

/-- C2.  Within a single run the admitted edges carry the ids
`e` + zero-padded (minimum width 3) consecutive numbers
`max0 + 1, max0 + 2, …` in order, where `max0` is the maximum numeric id
matched by `e(\d+)$` in the pre-existing dataset: a strictly increasing
sequence with no gaps, starting one past the persisted maximum, with no
upper bound (the format widens beyond three digits as needed). -/
theorem monotonic_edge_id_allocation (today : String) (E : List String)
    (T : List (String × String)) (fbn : Bool) (existing : List Edge)
    (arts : List (String × List PyVal)) (st : RunState)
    (hrun : process_run today E T fbn arts (initial_state existing) = .ok st) :
    st.new_edges.map Edge.id =
      (List.range st.new_edges.length).map
        (fun i => formatEdgeId (maxEdgeNum existing + 1 + i)) := by
  have hinit : IdsInv (maxEdgeNum existing) (initial_state existing) :=
    ⟨by simp [initial_state], by simp [initial_state]⟩
  exact (run_preserves (fun _ _ _ => IdsInv_preserved) hrun hinit).2

/-- Witness for C2: the concrete run from an empty dataset allocates
exactly the id `e001` = formatted `max0 + 1` with `max0 = 0`. -/
theorem monotonic_edge_id_allocation_witness :
    (okState wRun).new_edges.map Edge.id =
      (List.range (okState wRun).new_edges.length).map
        (fun i => formatEdgeId (maxEdgeNum [] + 1 + i)) :=
  monotonic_edge_id_allocation "2026-10-12" wE wT false [] wArts (okState wRun) (by rfl)

/-! ## C3 — no self-loops -/

/-- C3.  No admitted edge has `from == to`: every candidate whose two
sides resolve to the same canonical unit id is skipped by the admission
loop, so every edge admitted in a run has distinct endpoints. -/
theorem no_self_loops (today : String) (E : List String)
    (T : List (String × String)) (fbn : Bool) (existing : List Edge)
    (arts : List (String × List PyVal)) (st : RunState)
    (hrun : process_run today E T fbn arts (initial_state existing) = .ok st) :
    ∀ e ∈ st.new_edges, e.from_ ≠ e.to_ := by
  have hinit : NoLoopInv (initial_state existing) := by
    intro e he
    simp [initial_state] at he
  exact run_preserves (fun _ _ _ => NoLoopInv_preserved) hrun hinit

/-- Witness for C3: the edge admitted by the concrete run has distinct
endpoints. -/
theorem no_self_loops_witness : wEdge.from_ ≠ wEdge.to_ :=
  no_self_loops "2026-10-12" wE wT false [] wArts (okState wRun) (by rfl) wEdge
    (by rw [show (okState wRun).new_edges = [wEdge] from by rfl]
        exact List.mem_singleton_self _)

/-! ## C4 — fallback asymmetry -/

/-- C4.  A genuine empty answer from the primary provider is final: the
secondary is not invoked and the overall result is `[]`.  The secondary
is invoked exactly when the primary produced no valid answer (`None`:
quota exhausted, missing credentials, rate-limited, malformed output, or
error) and the secondary's quota is not yet exhausted; when the primary
has no answer and the secondary is exhausted, the result is `[]`. -/
theorem fallback_asymmetry (g : Option (List PyVal)) (q : Bool) (r : List PyVal) :
    (g = some [] → call_llm g q r = ([], false)) ∧
    ((call_llm g q r).2 = true ↔ g = Option.none ∧ q = false) ∧
    (g = Option.none → q = false → call_llm g q r = (r, true)) ∧
    (g = Option.none → q = true → call_llm g q r = ([], false)) := by
  rcases g with _ | r' <;> cases q <;> simp [call_llm]

/-- Witness for C4: a genuine empty Groq answer suppresses the Gemini
call, while a missing Groq answer invokes Gemini and returns its answer. -/
theorem fallback_asymmetry_witness :
    call_llm (some []) false [PyVal.str "x"] = ([], false) ∧
    call_llm Option.none false [PyVal.str "x"] = ([PyVal.str "x"], true) :=
  ⟨(fallback_asymmetry (some []) false [PyVal.str "x"]).1 rfl,
   (fallback_asymmetry Option.none false [PyVal.str "x"]).2.2.1 rfl rfl⟩

/-! ## C7 — provider output shape handling -/

/-- A dict-wrapped candidate array, legal per the claim for both providers. -/
def wrappedParsed : PyVal := PyVal.dict [("comparisons", PyVal.list [PyVal.str "x"])]

/-- Counterexample to C7 as stated.  The claim asserts that *each of the
two providers* accepts an object wrapping an array under a conventional
key and returns that wrapped array.  Groq does; Gemini does not: on the
same wrapped object Gemini returns `[]` — a genuine empty result, not
the wrapped list `[PyVal.str "x"]` and not a no-answer signal. -/
theorem provider_shape_cex :
    groq_parse_shape wrappedParsed = some [PyVal.str "x"] ∧
    gemini_parse_shape wrappedParsed = [] ∧
    ([] : List PyVal) ≠ [PyVal.str "x"] :=
  ⟨rfl, rfl, by simp⟩

/-- C7 (amended).  The primary provider accepts a bare array, or an
object wrapping an array under the first of the keys `comparisons`,
`results`, `data`, `items` that holds a list; any other shape is no
answer (`None`), which triggers fallback when the secondary quota
allows; the outcome is never an error.  The secondary provider accepts
only a bare array and maps every other shape to the empty list (a
genuine empty result — it is last in the chain, so nothing falls back
after it); it too never propagates an error. -/
theorem provider_output_shape (parsed : PyVal) :
    (∀ xs, parsed = PyVal.list xs →
      groq_parse_shape parsed = some xs ∧ gemini_parse_shape parsed = xs) ∧
    (∀ kvs, parsed = PyVal.dict kvs →
      groq_parse_shape parsed = firstWrapped kvs WRAP_KEYS ∧
      gemini_parse_shape parsed = []) ∧
    ((∀ xs, parsed ≠ PyVal.list xs) → (∀ kvs, parsed ≠ PyVal.dict kvs) →
      groq_parse_shape parsed = Option.none ∧ gemini_parse_shape parsed = []) ∧
    (∀ q r, groq_parse_shape parsed = Option.none →
      call_llm (groq_parse_shape parsed) q r = (if q then [] else r, !q)) := by
  cases parsed <;>
    first
    | (refine ⟨?_, ?_, ?_, ?_⟩
       · intro xs hx
         first
         | exact PyVal.noConfusion hx
         | (injection hx with hx; subst hx; exact ⟨rfl, rfl⟩)
       · intro kvs hk
         first
         | exact PyVal.noConfusion hk
         | (injection hk with hk; subst hk; exact ⟨rfl, rfl⟩)
       · intro h1 h2
         first
         | exact absurd rfl (h1 _)
         | exact absurd rfl (h2 _)
         | exact ⟨rfl, rfl⟩
       · intro q r hnone
         rw [hnone]
         cases q <;> simp [call_llm])

/-- Witness for C7: a bare array is returned as-is by the primary; a
bare scalar is no answer. -/
theorem provider_output_shape_witness :
    groq_parse_shape (PyVal.list [PyVal.int 1]) = some [PyVal.int 1] ∧
    groq_parse_shape (PyVal.int 3) = Option.none :=
  ⟨((provider_output_shape (PyVal.list [PyVal.int 1])).1 [PyVal.int 1] rfl).1,
   ((provider_output_shape (PyVal.int 3)).2.2.1
      (fun _ h => PyVal.noConfusion h) (fun _ h => PyVal.noConfusion h)).1⟩

/-! ## C5 — validator acceptance condition -/

/-- The candidate's `source_quote` field is absent or a string (the
domain carved out by C5; outside it the validator can raise, see C9). -/
def sq_ok : PyVal → Bool
  | .dict kvs =>
      match pyGet kvs "source_quote" with
      | some (.str _) => true
      | some _ => false
      | Option.none => true
  | _ => true

/-- The acceptance condition as the spec words it: a structured object
with both `from` and `to` keys, a numeric strictly positive factor, and
a non-empty string `source_quote` containing a recognised comparison
phrase fragment. -/
def acceptSpec : PyVal → Bool
  | .dict kvs =>
      (pyGet kvs "from").isSome && (pyGet kvs "to").isSome &&
      isNumeric ((pyGet kvs "factor").getD PyVal.none) &&
      decide (0 < numQ ((pyGet kvs "factor").getD PyVal.none)) &&
      (match pyGet kvs "source_quote" with
       | some (.str t) => decide (t ≠ "") && has_comparison_phrase t
       | _ => false)
  | _ => false

/-- C5.  On every candidate whose `source_quote` is absent or a string,
the validator returns normally and accepts exactly under the spec's
conjunction of checks (shape, keys, positive numeric factor, non-empty
quote with a recognised phrase); the source checks these in exactly that
order with short-circuiting, so the extensional acceptance condition is
their conjunction. -/
theorem validator_acceptance (comp : PyVal) (h : sq_ok comp = true) :
    validate_comparison comp = .ok (acceptSpec comp) := by
  cases comp
  case dict kvs =>
    rcases hfrom : pyGet kvs "from" with _ | fv
    · simp [validate_comparison, acceptSpec, hfrom]
    rcases hto : pyGet kvs "to" with _ | tv
    · simp [validate_comparison, acceptSpec, hfrom, hto]
    by_cases hnum : isNumeric ((pyGet kvs "factor").getD PyVal.none) = true
    swap
    · simp [validate_comparison, acceptSpec, hfrom, hto, hnum]
    by_cases hpos : numQ ((pyGet kvs "factor").getD PyVal.none) ≤ 0
    · simp [validate_comparison, acceptSpec, hfrom, hto, hnum, hpos,
        decide_eq_false (not_lt.mpr hpos)]
    have hlt := not_le.mp hpos
    rcases hsq : pyGet kvs "source_quote" with _ | qv
    · simp [validate_comparison, acceptSpec, hfrom, hto, hnum, hpos, hsq, PyVal.truthy]
    rcases qv with _ | b | n | qq | t | xs | kk
    · simp [sq_ok, hsq] at h
    · simp [sq_ok, hsq] at h
    · simp [sq_ok, hsq] at h
    · simp [sq_ok, hsq] at h
    · by_cases ht : t = ""
      · subst ht
        simp [validate_comparison, acceptSpec, hfrom, hto, hnum, hpos, hsq, PyVal.truthy]
      · simp [validate_comparison, acceptSpec, hfrom, hto, hnum, hpos, hsq,
          PyVal.truthy, ht, decide_eq_true hlt]
    · simp [sq_ok, hsq] at h
    · simp [sq_ok, hsq] at h
  all_goals rfl

/-- The rocket candidate from the spec: well-formed `from`/`to`/`factor`
but a quote with no recognised comparison phrase. -/
def rocketComp : PyVal := PyVal.dict
  [("from", PyVal.str "rocket"), ("to", PyVal.str "foot"),
   ("factor", PyVal.int 80),
   ("source_quote", PyVal.str "The rocket rose 80 feet into the air.")]

/-- Witness for C5: the rocket candidate is rejected. -/
theorem validator_acceptance_witness :
    validate_comparison rocketComp = Except.ok false := by
  have h := validator_acceptance rocketComp (by rfl)
  rw [show acceptSpec rocketComp = false from by rfl] at h
  exact h

/-! ## C9 — validator totality (code bug) -/

/-- A candidate with well-formed `from`, `to` and `factor` but a truthy
non-string `source_quote`. -/
def c9Comp : PyVal := PyVal.dict
  [("from", PyVal.str "a"), ("to", PyVal.str "b"),
   ("factor", PyVal.int 1), ("source_quote", PyVal.int 5)]

/-- C9 fails on the code: the validator is not total.  A truthy
non-string `source_quote` slips past the `if not quote` guard and
reaches `has_comparison_phrase`, where `quote.lower()` raises
`AttributeError` — the validator does not return accept/reject on this
candidate, contradicting the specified contract (the exception
propagates to the top-level handler and aborts the whole run). -/
theorem validator_totality_bug :
    validate_comparison c9Comp = Except.error (PyExc.attributeError "lower") := by rfl

/-! ## C10 — boolean factor edge case -/

/-- A candidate whose `factor` is the boolean `True`, otherwise
admissible against the witness catalogue. -/
def c10Comp : PyVal := PyVal.dict
  [("from", PyVal.str "wales"), ("to", PyVal.str "football_pitch"),
   ("factor", PyVal.bool true),
   ("source_quote", PyVal.str "It is as big as Wales.")]

/-- The article run admitting the boolean-factor candidate. -/
def c10Run : Except PyExc RunState :=
  process_article "https://example.org/bool" "2026-10-12" wE wT false
    [c10Comp] (initial_state [])

/-- C10.  A candidate whose `factor` is boolean `True` passes the
validator's numeric-and-strictly-positive check (Python `bool` is a
subclass of `int` and `True > 0`), and when otherwise admissible the
admitted edge carries `factor = float(True) = 1.0`; the validator does
not distinguish booleans from numbers. -/
theorem boolean_factor_accepted :
    isNumeric (PyVal.bool true) = true ∧
    validate_comparison c10Comp = Except.ok true ∧
    (okState c10Run).new_edges.map Edge.factor = [(1 : ℚ)] :=
  ⟨rfl, rfl, rfl⟩

/-! ## C6 — minted-unit term indexing -/

/-- Projection: the resolved unit id of a `resolve_unit` outcome. -/
def resolveId (r : Except PyExc (Option String × Option PyVal × List (String × PyVal))) :
    Option String :=
  match r with
  | .ok (i, _, _) => i
  | .error _ => Option.none

/-- Projection: the newly minted unit of a `resolve_unit` outcome. -/
def resolveUnitOpt (r : Except PyExc (Option String × Option PyVal × List (String × PyVal))) :
    Option PyVal :=
  match r with
  | .ok (_, u, _) => u
  | .error _ => Option.none

/-- Projection: the minted-units map of a `resolve_unit` outcome. -/
def resolveMap (r : Except PyExc (Option String × Option PyVal × List (String × PyVal))) :
    List (String × PyVal) :=
  match r with
  | .ok (_, _, m) => m
  | .error _ => []

/-- Catalogue ids for the C6 scenario. -/
def c6E : List String := ["wales"]

/-- Term index for the C6 scenario (built from the pre-existing
catalogue only, as `main` does). -/
def c6T : List (String × String) := [("wales", "wales")]

/-- A structured proposal minting a new unit with an alias. -/
def c6P1 : PyVal := PyVal.dict
  [("id", PyVal.str "eiffel_tower"), ("label", PyVal.str "Eiffel Tower"),
   ("aliases", PyVal.list [PyVal.str "eiffel towers"])]

/-- A later proposal in the same run whose label matches, case-insensitively,
an alias of the unit minted from `c6P1` — but under a different id. -/
def c6P2 : PyVal := PyVal.dict
  [("id", PyVal.str "la_tour_eiffel"), ("label", PyVal.str "Eiffel Towers")]

/-- First resolution: mints `eiffel_tower`. -/
def c6r1 : Except PyExc (Option String × Option PyVal × List (String × PyVal)) :=
  resolve_unit c6P1 c6E [] c6T

/-- Second resolution in the same run, against the updated minted map. -/
def c6r2 : Except PyExc (Option String × Option PyVal × List (String × PyVal)) :=
  resolve_unit c6P2 c6E (resolveMap c6r1) c6T

/-- Counterexample to C6 as stated.  `c6P1` mints `eiffel_tower` whose
alias list contains `"eiffel towers"`; `c6P2`'s label lowercases to
exactly that term, so by the claim it should resolve to `eiffel_tower`.
It does not: the term index is never extended during a run, so the
second proposal mints the duplicate unit `la_tour_eiffel` and the
minted map ends up with two entries. -/
theorem minted_terms_not_indexed_cex :
    resolveId c6r1 = some "eiffel_tower" ∧
    resolveUnitOpt c6r1 = some (PyVal.dict
      [("id", PyVal.str "eiffel_tower"), ("label", PyVal.str "Eiffel Tower"),
       ("aliases", PyVal.list [PyVal.str "eiffel towers"])]) ∧
    lowerStr "Eiffel Towers" = "eiffel towers" ∧
    resolveId c6r2 = some "la_tour_eiffel" ∧
    (resolveMap c6r2).map Prod.fst = ["eiffel_tower", "la_tour_eiffel"] :=
  ⟨rfl, rfl, rfl, rfl, rfl⟩

/-- C6 (amended).  After `resolve_unit` mints a new unit within a run,
only the unit's id is indexed for subsequent lookups (through the
minted-units map): a later reference in the same run that uses the
minted unit's exact id resolves to that unit's id without minting a
duplicate and without modifying the map.  The minted unit's label and
alias terms are *not* added to the term index (the index is built once
from the persisted catalogue and never extended during a run), so a
later reference matching only by label or alias can mint a duplicate
unit. -/
theorem minted_id_indexed (f : String) (E : List String)
    (m : List (String × PyVal)) (T : List (String × String))
    (h : (pyGet m f).isSome = true) :
    resolve_unit (PyVal.str f) E m T = .ok (some f, Option.none, m) := by
  simp [resolve_unit, h]

/-- Witness for the amended C6: the id minted from `c6P1` resolves to
itself in a later lookup of the same run. -/
theorem minted_id_indexed_witness :
    resolve_unit (PyVal.str "eiffel_tower") c6E (resolveMap c6r1) c6T =
      .ok (some "eiffel_tower", Option.none, resolveMap c6r1) :=
  minted_id_indexed "eiffel_tower" c6E (resolveMap c6r1) c6T (by rfl)

/-! ## C8 — idempotence of identity resolution -/

/-- C8.  Resolving the same structured new-unit proposal twice within
one run (no intervening catalogue change) yields the same unit id both
times, and the second resolution leaves the minted-units map exactly as
the first left it — no `_2`-suffixed duplicate entry is created for a
repeat of an identical proposal. -/
theorem resolve_unit_idempotent (kvs : List (String × PyVal)) (E : List String)
    (m : List (String × PyVal)) (T : List (String × String))
    (i : String) (u : Option PyVal) (m' : List (String × PyVal))
    (h : resolve_unit (PyVal.dict kvs) E m T = .ok (some i, u, m')) :
    ∃ u', resolve_unit (PyVal.dict kvs) E m' T = .ok (some i, u', m') := by
  simp only [resolve_unit] at h ⊢
  unfold resolve_unit_dict at h ⊢
  rcases hb : buildCheckTerms kvs with e | terms
  · rw [hb] at h
    exact Except.noConfusion h
  simp only [hb] at h ⊢
  rcases hf : firstTermMatch T terms with _ | c
  · simp only [hf] at h ⊢
    rcases hs : computeSuggested kvs with e | sug
    · rw [hs] at h
      exact Except.noConfusion h
    simp only [hs] at h ⊢
    by_cases hmem : (pyGet m sug).isSome = true
    · rw [if_pos hmem] at h
      injection h with h
      injection h with h1 h2
      injection h2 with h2 h3
      injection h1 with h1
      subst h1; subst h3
      rw [if_pos hmem]
      exact ⟨Option.none, rfl⟩
    · rw [if_neg hmem] at h
      injection h with h
      injection h with h1 h2
      injection h2 with h2 h3
      injection h1 with h1
      subst h1
      subst h3
      by_cases hsf : sug = findFinalId sug E
      · have hget : (pyGet (insertPy m (findFinalId sug E) (mkNewUnit kvs (findFinalId sug E))) sug).isSome = true := by
          rw [← hsf, pyGet_insertPy_self]
          rfl
        rw [if_pos hget]
        exact ⟨Option.none, by rw [← hsf]⟩
      · have hget : pyGet (insertPy m (findFinalId sug E) (mkNewUnit kvs (findFinalId sug E))) sug = pyGet m sug :=
          pyGet_insertPy_ne m _ (fun hh => hsf hh.symm)
        have hmem' : ¬ ((pyGet (insertPy m (findFinalId sug E) (mkNewUnit kvs (findFinalId sug E))) sug).isSome = true) := by
          rw [hget]
          exact hmem
        rw [if_neg hmem']
        refine ⟨some (mkNewUnit kvs (findFinalId sug E)), ?_⟩
        have hfix : insertPy (insertPy m (findFinalId sug E) (mkNewUnit kvs (findFinalId sug E)))
            (findFinalId sug E) (mkNewUnit kvs (findFinalId sug E)) =
            insertPy m (findFinalId sug E) (mkNewUnit kvs (findFinalId sug E)) :=
          insertPy_of_pyGet (pyGet_insertPy_self m _ _)
        rw [hfix]
  · simp only [hf] at h ⊢
    injection h with h
    injection h with h1 h2
    injection h2 with h2 h3
    injection h1 with h1
    subst h1; subst h3
    exact ⟨Option.none, rfl⟩

/-- Proposal for the C8 witness: it collides with the catalogue id
`double_decker_bus`, so the minted id is the suffixed
`double_decker_bus_2` — repeated resolution reuses exactly that id and
leaves the map unchanged. -/
def c8P : List (String × PyVal) := [("label", PyVal.str "Double Decker Bus")]

/-- Catalogue ids for the C8 witness (forcing the `_2` suffix). -/
def c8E : List String := ["double_decker_bus"]

/-- First resolution of the C8 proposal. -/
def c8r1 : Except PyExc (Option String × Option PyVal × List (String × PyVal)) :=
  resolve_unit (PyVal.dict c8P) c8E [] []

/-- Witness for C8: resolving the identical proposal a second time
yields the same `_2`-suffixed id and the identical minted map. -/
theorem resolve_unit_idempotent_witness :
    ∃ u', resolve_unit (PyVal.dict c8P) c8E (resolveMap c8r1) [] =
      .ok (some "double_decker_bus_2", u', resolveMap c8r1) :=
  resolve_unit_idempotent c8P c8E [] [] "double_decker_bus_2"
    (resolveUnitOpt c8r1) (resolveMap c8r1) (by rfl)

end ABM
